import Mathlib

/-!
Verification of the e-ink bitmap conversion core (`server/src/bitmap.rs`).

The Rust code in `bitmap.rs` is shallowly embedded below:
machine integers (`u8`, `u16`, `usize`) become `Nat` (their value ranges
are carried as hypotheses where they matter), `Vec<u8>` becomes `List Nat`,
`f32` arithmetic is modelled by exact real arithmetic over `ℝ`, and the
possibility of an out-of-bounds `Vec` index panic is modelled by `Option`.
Definitions are transcribed from the Rust source; the few definitions that
model behaviour the spec describes but whose code is not part of the
repository snapshot carry a doc comment starting `Modelled from the spec:`.
-/

/-- The `EpdColor` enum of `bitmap.rs` (E Ink Spectra 6 palette). -/
inductive EpdColor : Type where
  | Black : EpdColor
  | White : EpdColor
  | Green : EpdColor
  | Blue : EpdColor
  | Red : EpdColor
  | Yellow : EpdColor
deriving DecidableEq, Repr

/-- The `#[repr(u8)]` discriminant of `EpdColor` (`color as u8` in the source). -/
def EpdColor.toNat : EpdColor → Nat
  | .Black => 0
  | .White => 1
  | .Green => 2
  | .Blue => 3
  | .Red => 4
  | .Yellow => 5

/-- The `PALETTE` constant: approximate RGB values for the six pigments. -/
def PALETTE : List (Nat × Nat × Nat) :=
  [(0, 0, 0), (255, 255, 255), (0, 255, 0), (0, 0, 255), (255, 0, 0), (255, 255, 0)]

/-- `epd_color_to_rgb`: palette lookup by discriminant. -/
def epd_color_to_rgb (color : EpdColor) : Nat × Nat × Nat :=
  PALETTE.getD color.toNat (0, 0, 0)

/-- The `EpdBitmap` struct: width, height (both `u16` in the source) and the
row-major index buffer `data : Vec<u8>`. -/
structure EpdBitmap : Type where
  width : Nat
  height : Nat
  data : List Nat
deriving DecidableEq, Repr

/-- `EpdBitmap::new`: a `width*height` buffer filled with the White index. -/
def EpdBitmap.new (width height : Nat) : EpdBitmap :=
  { width := width, height := height,
    data := List.replicate (width * height) EpdColor.White.toNat }

/-- `EpdBitmap::set_pixel`: in-bounds writes update `data[y*width + x]`,
out-of-bounds writes are silently dropped. -/
def EpdBitmap.set_pixel (b : EpdBitmap) (x y : Nat) (color : EpdColor) : EpdBitmap :=
  if x < b.width ∧ y < b.height then
    { b with data := b.data.set (y * b.width + x) color.toNat }
  else
    b

/-- `EpdBitmap::to_bytes`: the ASCII magic `"EPBM"`, the width and the height
as big-endian `u16` byte pairs, then the raw index bytes. -/
def EpdBitmap.to_bytes (b : EpdBitmap) : List Nat :=
  [69, 80, 66, 77] ++
    [b.width / 256, b.width % 256] ++
    [b.height / 256, b.height % 256] ++
    b.data

/-- The bitmap invariant stated by the spec: the buffer holds exactly
`width*height` bytes and every byte is a valid palette index. -/
def EpdBitmap.Inv (b : EpdBitmap) : Prop :=
  b.data.length = b.width * b.height ∧ ∀ v ∈ b.data, v < 6

instance (b : EpdBitmap) : Decidable b.Inv := by
  unfold EpdBitmap.Inv; infer_instance

/-- The `ATKINSON_KERNEL` constant: `(dx, dy, weight)` triples.  The `f32`
weight `1.0 / 8.0` is exactly representable, so `ℚ` models it faithfully. -/
def ATKINSON_KERNEL : List (Int × Int × ℚ) :=
  [(1, 0, 1 / 8), (2, 0, 1 / 8), (-1, 1, 1 / 8), (0, 1, 1 / 8), (1, 1, 1 / 8), (0, 2, 1 / 8)]

/-- One accumulated-error cell `(f32, f32, f32)`, modelled over `ℚ`
(the diffusion claims are about which cells are written, not float rounding). -/
abbrev ErrCell : Type := ℚ × ℚ × ℚ

/-- The error buffer `vec![vec![(0.0, 0.0, 0.0); width]; height]`,
indexed `errors[y][x]`. -/
abbrev ErrGrid : Type := List (List ErrCell)

/-- `errors[ny][nx].{0,1,2} += quant_err_{r,g,b} * weight`, with Rust `Vec`
indexing modelled by `Option`: `none` is an index panic. -/
def addAtCell (g : ErrGrid) (row col : Nat) (d : ErrCell) : Option ErrGrid :=
  match g[row]? with
  | none => none
  | some r =>
    match r[col]? with
    | none => none
    | some e =>
      some (g.set row (r.set col (e.1 + d.1, e.2.1 + d.2.1, e.2.2 + d.2.2)))

/-- One iteration of the kernel loop in `render_svg_to_bitmap`: bounds-check
the neighbour `(x+dx, y+dy)` and accumulate the weighted quantization error
there; out-of-bounds offsets are skipped. -/
def diffuseStep (w h x y : Nat) (qe : ErrCell) (acc : Option ErrGrid)
    (k : Int × Int × ℚ) : Option ErrGrid :=
  match acc with
  | none => none
  | some errs =>
    let nx : Int := (x : Int) + k.1
    let ny : Int := (y : Int) + k.2.1
    if 0 ≤ nx ∧ nx < (w : Int) ∧ 0 ≤ ny ∧ ny < (h : Int) then
      addAtCell errs ny.toNat nx.toNat (qe.1 * k.2.2, qe.2.1 * k.2.2, qe.2.2 * k.2.2)
    else
      some errs

/-- The error-diffusion loop body of `render_svg_to_bitmap`: fold
`diffuseStep` over the Atkinson kernel. -/
def diffuseError (g : ErrGrid) (w h : Nat) (x y : Nat) (qe : ErrCell) : Option ErrGrid :=
  ATKINSON_KERNEL.foldl (diffuseStep w h x y qe) (some g)

/-- Shape of the error buffer: `h` rows of `w` cells each. -/
def wellShaped (g : ErrGrid) (w h : Nat) : Prop :=
  g.length = h ∧ ∀ r ∈ g, r.length = w

/-- `(j, i)` is one of the six kernel neighbours of `(x, y)` that lies inside
the `w × h` image. -/
def inKernelTarget (x y j i w h : Nat) : Prop :=
  ∃ k ∈ ATKINSON_KERNEL,
    (j : Int) = (x : Int) + k.1 ∧ (i : Int) = (y : Int) + k.2.1 ∧
      (j : Int) < (w : Int) ∧ (i : Int) < (h : Int)

/-- `(j, i)` sits at one of the six kernel offsets from `(x, y)` (bounds
ignored). -/
def atKernelOffset (x y j i : Nat) : Prop :=
  ∃ k ∈ ATKINSON_KERNEL, (j : Int) = (x : Int) + k.1 ∧ (i : Int) = (y : Int) + k.2.1

/-- Cell `(col, row)` of an error grid, as an optional value. -/
def cellAt (g : ErrGrid) (row col : Nat) : Option ErrCell :=
  match g[row]? with
  | none => none
  | some r => r[col]?

instance (g : ErrGrid) (w h : Nat) : Decidable (wellShaped g w h) := by
  unfold wellShaped; infer_instance

instance (x y j i : Nat) : Decidable (atKernelOffset x y j i) := by
  unfold atKernelOffset; infer_instance

instance (x y j i w h : Nat) : Decidable (inKernelTarget x y j i w h) := by
  unfold inKernelTarget; infer_instance

/-! ## Color science

The `f32` arithmetic of the source is modelled by exact real arithmetic:
all constants are transcribed literally, `powf`/`cbrt` become `Real.rpow`
(every `cbrt` argument in this code is positive on the branch where it is
taken), `sqrt` becomes `Real.sqrt`, and the `u8` casts, `round`, `clamp`
and float `%` keep Rust's semantics (truncation toward zero, half away
from zero, saturation). -/

/-- The `PALETTE_LAB` constant: pre-computed CIELAB values stored in the
source. -/
noncomputable def PALETTE_LAB : List (ℝ × ℝ × ℝ) :=
  [(0, 0, 0), (100, 0, 0), (87.73, -86.18, 83.18), (32.30, 79.19, -107.86),
   (53.24, 80.09, 67.20), (97.14, -21.55, 94.48)]

/-- `srgb_to_linear`: inverse gamma, branch at 0.04045. -/
noncomputable def srgb_to_linear (c : Nat) : ℝ :=
  let cf : ℝ := (c : ℝ) / 255
  if cf ≤ 0.04045 then cf / 12.92 else ((cf + 0.055) / 1.055) ^ (2.4 : ℝ)

/-- `rgb_to_xyz`: the fixed D65 sRGB-to-XYZ matrix, scaled to 0–100. -/
noncomputable def rgb_to_xyz (r g b : Nat) : ℝ × ℝ × ℝ :=
  let rl := srgb_to_linear r
  let gl := srgb_to_linear g
  let bl := srgb_to_linear b
  ((rl * 0.4124564 + gl * 0.3575761 + bl * 0.1804375) * 100,
   (rl * 0.2126729 + gl * 0.7151522 + bl * 0.0721750) * 100,
   (rl * 0.0193339 + gl * 0.119192 + bl * 0.9503041) * 100)

/-- `xyz_to_lab_component`: cube root above `(6/29)³`, linear below. -/
noncomputable def xyz_to_lab_component (t : ℝ) : ℝ :=
  if t > (6 / 29 : ℝ) * (6 / 29) * (6 / 29) then t ^ ((1 : ℝ) / 3)
  else t / (3 * ((6 / 29 : ℝ) * (6 / 29))) + 4 / 29

/-- `xyz_to_lab`: D65 white point normalization. -/
noncomputable def xyz_to_lab (x y z : ℝ) : ℝ × ℝ × ℝ :=
  let fx := xyz_to_lab_component (x / 95.047)
  let fy := xyz_to_lab_component (y / 100.000)
  let fz := xyz_to_lab_component (z / 108.883)
  (116 * fy - 16, 500 * (fx - fy), 200 * (fy - fz))

/-- `rgb_to_lab`. -/
noncomputable def rgb_to_lab (r g b : Nat) : ℝ × ℝ × ℝ :=
  let xyz := rgb_to_xyz r g b
  xyz_to_lab xyz.1 xyz.2.1 xyz.2.2

/-- `delta_e`: Euclidean CIE76 distance. -/
noncomputable def delta_e (l1 a1 b1 l2 a2 b2 : ℝ) : ℝ :=
  Real.sqrt ((l1 - l2) * (l1 - l2) + (a1 - a2) * (a1 - a2) + (b1 - b2) * (b1 - b2))

/-- Rust `f32::trunc`: round toward zero. -/
noncomputable def rustTrunc (x : ℝ) : ℝ := if 0 ≤ x then (⌊x⌋ : ℝ) else (⌈x⌉ : ℝ)

/-- Rust `%` on floats: remainder carrying the dividend's sign. -/
noncomputable def rustRem (x y : ℝ) : ℝ := x - y * rustTrunc (x / y)

/-- Rust `f32::round`: round half away from zero. -/
noncomputable def rustRound (x : ℝ) : ℝ :=
  if 0 ≤ x then (⌊x + 1 / 2⌋ : ℝ) else (⌈x - 1 / 2⌉ : ℝ)

/-- `.clamp(0.0, 255.0) as u8` (the cast truncates; its argument is already
an integer-valued real here). -/
noncomputable def clamp_as_u8 (x : ℝ) : Nat := (⌊max 0 (min 255 x)⌋).toNat

/-- `rgb_to_hsl`. -/
noncomputable def rgb_to_hsl (r g b : Nat) : ℝ × ℝ × ℝ :=
  let rf : ℝ := (r : ℝ) / 255
  let gf : ℝ := (g : ℝ) / 255
  let bf : ℝ := (b : ℝ) / 255
  let maxv := max (max rf gf) bf
  let minv := min (min rf gf) bf
  let delta := maxv - minv
  let l := (maxv + minv) / 2
  let s := if delta = 0 then 0 else delta / (1 - |2 * l - 1|)
  let h0 : ℝ :=
    if delta = 0 then 0
    else if maxv = rf then 60 * rustRem ((gf - bf) / delta) 6
    else if maxv = gf then 60 * ((bf - rf) / delta + 2)
    else 60 * ((rf - gf) / delta + 4)
  let h := if h0 < 0 then h0 + 360 else h0
  (h, s, l)

/-- `hsl_to_rgb`. -/
noncomputable def hsl_to_rgb (h s l : ℝ) : Nat × Nat × Nat :=
  let c := (1 - |2 * l - 1|) * s
  let x := c * (1 - |rustRem (h / 60) 2 - 1|)
  let m := l - c / 2
  let rgb1 : ℝ × ℝ × ℝ :=
    if h < 60 then (c, x, 0)
    else if h < 120 then (x, c, 0)
    else if h < 180 then (0, c, x)
    else if h < 240 then (0, x, c)
    else if h < 300 then (x, 0, c)
    else (c, 0, x)
  (clamp_as_u8 (rustRound ((rgb1.1 + m) * 255)),
   clamp_as_u8 (rustRound ((rgb1.2.1 + m) * 255)),
   clamp_as_u8 (rustRound ((rgb1.2.2 + m) * 255)))

/-- `boost_saturation`: multiply HSL saturation by `boost_factor`, clamp to 1. -/
noncomputable def boost_saturation (r g b : Nat) (bf : ℝ) : Nat × Nat × Nat :=
  let hsl := rgb_to_hsl r g b
  hsl_to_rgb hsl.1 (min (hsl.2.1 * bf) 1) hsl.2.2

/-- The CIELAB distance from the saturation-boosted input to palette entry
`i`, exactly as computed inside `rgb_to_epd_color`. -/
noncomputable def epdDist (r g b : Nat) (i : Nat) : ℝ :=
  let rgb2 := boost_saturation r g b 1.2
  let lab := rgb_to_lab rgb2.1 rgb2.2.1 rgb2.2.2
  let pl := PALETTE_LAB.getD i (0, 0, 0)
  delta_e lab.1 lab.2.1 lab.2.2 pl.1 pl.2.1 pl.2.2

/-- Rust `Iterator::min_by` over `(index, distance)` pairs: the accumulator
is kept unless the next element is strictly smaller, so the first minimum
wins ties. -/
noncomputable def minByDist : (Nat × ℝ) → List (Nat × ℝ) → (Nat × ℝ)
  | best, [] => best
  | best, p :: rest => minByDist (if best.2 > p.2 then p else best) rest

/-- `rgb_to_epd_color`: index of the nearest palette entry in CIELAB space
(the source iterates the six colors in palette order). -/
noncomputable def rgb_to_epd_color (r g b : Nat) : Nat :=
  (minByDist (0, epdDist r g b 0)
    [(1, epdDist r g b 1), (2, epdDist r g b 2), (3, epdDist r g b 3),
     (4, epdDist r g b 4), (5, epdDist r g b 5)]).1

/-- `(pixel as f32 + err).clamp(0.0, 255.0) as u8` — the per-channel input
of the diffusion loop's quantization step. -/
noncomputable def clamp_add_u8 (p : Nat) (e : ℝ) : Nat :=
  (⌊max 0 (min 255 ((p : ℝ) + e))⌋).toNat

/-- The per-pixel quantization of the diffusion loop: add the accumulated
error to the raw RGB, clamp, and pick the nearest palette color. -/
noncomputable def diffusePixelColor (r g b : Nat) (er eg eb : ℝ) : Nat :=
  rgb_to_epd_color (clamp_add_u8 r er) (clamp_add_u8 g eg) (clamp_add_u8 b eb)

/-! ## Dithering strategies

The repository snapshot contains only the error-diffusion strategy
(`render_svg_to_bitmap`); the spec describes an ordered (Bayer) and a
checkerboard strategy selected by configuration.  Those two strategies and
the strategy selector are therefore modelled from the spec's words. -/

/-- Inverse of the `EpdColor` discriminant (model plumbing: the source keeps
the enum value where this embedding carries its `u8` discriminant). -/
def epdColorOfNat : Nat → EpdColor
  | 0 => .Black
  | 1 => .White
  | 2 => .Green
  | 3 => .Blue
  | 4 => .Red
  | _ => .Yellow

/-- Modelled from the spec: the quantizer variant "returns … the two nearest
colors with their distances" (§4.2) used by the ordered and checkerboard
paths; the snapshot only contains the single-nearest quantizer, so the
second-nearest is the nearest among the remaining five entries, reusing the
code's CIELAB distance and tie-breaking. -/
noncomputable def quantize2 (r g b : Nat) : (Nat × ℝ) × (Nat × ℝ) :=
  let first := minByDist (0, epdDist r g b 0)
    [(1, epdDist r g b 1), (2, epdDist r g b 2), (3, epdDist r g b 3),
     (4, epdDist r g b 4), (5, epdDist r g b 5)]
  let rest := ((List.range 6).filter (fun j => j ≠ first.1)).map
    (fun j => (j, epdDist r g b j))
  let second := match rest with
    | [] => first
    | p :: ps => minByDist p ps
  (first, second)

/-- The dithering strategy selector described by the spec (§4.3): a pure
configuration choice. -/
inductive DitherStrategy : Type where
  | ErrorDiffusion : DitherStrategy
  | OrderedBayer : DitherStrategy
  | Checkerboard : DitherStrategy

/-- Modelled from the spec: the ordered (Bayer) per-pixel decision (§4.3b) —
a stateless function of `(x, y)`, the 4×4 threshold matrix, the pure-color
epsilon and the pixel's two nearest palette colors and distances.  The
matrix entries and epsilon are configuration parameters (the spec fixes
neither numerically). -/
noncomputable def orderedPixel (bayer : Nat → Nat → ℝ) (eps : ℝ) (x y : Nat)
    (rgb : Nat × Nat × Nat) : Nat :=
  let q := quantize2 rgb.1 rgb.2.1 rgb.2.2
  if q.1.2 < eps then q.1.1
  else if bayer (x % 4) (y % 4) < q.1.2 / (q.1.2 + q.2.2) then q.2.1
  else q.1.1

/-- Modelled from the spec: the checkerboard per-pixel decision (§4.3c) —
per-channel linear-interpolation ratio between the two nearest palette
colors' RGB values, averaged and clamped to `[0,1]`; the parity of `x + y`
decides which color is favored at the `0.5` boundary. -/
noncomputable def checkerboardPixel (x y : Nat) (rgb : Nat × Nat × Nat) : Nat :=
  let q := quantize2 rgb.1 rgb.2.1 rgb.2.2
  let c1 := PALETTE.getD q.1.1 (0, 0, 0)
  let c2 := PALETTE.getD q.2.1 (0, 0, 0)
  let tr : ℝ := if (c2.1 : ℝ) = (c1.1 : ℝ) then 0
    else ((rgb.1 : ℝ) - (c1.1 : ℝ)) / ((c2.1 : ℝ) - (c1.1 : ℝ))
  let tg : ℝ := if (c2.2.1 : ℝ) = (c1.2.1 : ℝ) then 0
    else ((rgb.2.1 : ℝ) - (c1.2.1 : ℝ)) / ((c2.2.1 : ℝ) - (c1.2.1 : ℝ))
  let tb : ℝ := if (c2.2.2 : ℝ) = (c1.2.2 : ℝ) then 0
    else ((rgb.2.2 : ℝ) - (c1.2.2 : ℝ)) / ((c2.2.2 : ℝ) - (c1.2.2 : ℝ))
  let t := max 0 (min 1 ((tr + tg + tb) / 3))
  if (x + y) % 2 = 0 then (if 1 / 2 ≤ t then q.2.1 else q.1.1)
  else (if 1 / 2 < t then q.2.1 else q.1.1)

/-- The raster-order pixel traversal (top-to-bottom, left-to-right) of the
diffusion loop in `render_svg_to_bitmap`. -/
def rasterOrder (w h : Nat) : List (Nat × Nat) :=
  (List.range h).flatMap (fun y => (List.range w).map (fun x => (x, y)))

/-- The per-pixel body of the diffusion loop in `render_svg_to_bitmap`:
read the accumulated error, add it to the raw pixel and clamp, quantize,
diffuse the quantization error, and write the pixel. -/
noncomputable def diffusionStepPixel (img : Nat → Nat → Nat × Nat × Nat) (w h : Nat)
    (st : ErrGrid × EpdBitmap) (xy : Nat × Nat) : ErrGrid × EpdBitmap :=
  let x := xy.1
  let y := xy.2
  let p := img x y
  let e := (cellAt st.1 y x).getD (0, 0, 0)
  let r := clamp_add_u8 p.1 (e.1 : ℝ)
  let g := clamp_add_u8 p.2.1 (e.2.1 : ℝ)
  let b := clamp_add_u8 p.2.2 (e.2.2 : ℝ)
  let color := rgb_to_epd_color r g b
  let crgb := epd_color_to_rgb (epdColorOfNat color)
  let qe : ErrCell := ((r : ℚ) - (crgb.1 : ℚ), (g : ℚ) - (crgb.2.1 : ℚ),
    (b : ℚ) - (crgb.2.2 : ℚ))
  let errs := (diffuseError st.1 w h x y qe).getD st.1
  (errs, st.2.set_pixel x y (epdColorOfNat color))

/-- The error-diffusion conversion of `render_svg_to_bitmap` over an
abstract rasterized RGB image (the SVG decoding itself is an external
collaborator): raster-order fold of the per-pixel step, starting from a
zero error buffer and a White bitmap. -/
noncomputable def diffusionConvert (img : Nat → Nat → Nat × Nat × Nat) (w h : Nat) :
    EpdBitmap :=
  let init : ErrGrid := List.replicate h (List.replicate w ((0 : ℚ), (0 : ℚ), (0 : ℚ)))
  ((rasterOrder w h).foldl (diffusionStepPixel img w h) (init, EpdBitmap.new w h)).2

/-- Modelled from the spec: the ordered conversion — every output pixel is
the stateless `orderedPixel` of its own coordinates and input pixel. -/
noncomputable def orderedConvert (bayer : Nat → Nat → ℝ) (eps : ℝ)
    (img : Nat → Nat → Nat × Nat × Nat) (w h : Nat) : EpdBitmap :=
  { width := w, height := h,
    data := (List.range (w * h)).map
      (fun k => orderedPixel bayer eps (k % w) (k / w) (img (k % w) (k / w))) }

/-- Modelled from the spec: the checkerboard conversion, per-pixel and
stateless like the ordered one. -/
noncomputable def checkerboardConvert (img : Nat → Nat → Nat × Nat × Nat) (w h : Nat) :
    EpdBitmap :=
  { width := w, height := h,
    data := (List.range (w * h)).map
      (fun k => checkerboardPixel (k % w) (k / w) (img (k % w) (k / w))) }

/-- Modelled from the spec: the configuration-selected dithering engine —
each strategy consumes the full rasterized image and produces a complete
indexed bitmap. -/
noncomputable def ditherConvert (strat : DitherStrategy) (bayer : Nat → Nat → ℝ)
    (eps : ℝ) (img : Nat → Nat → Nat × Nat × Nat) (w h : Nat) : EpdBitmap :=
  match strat with
  | .ErrorDiffusion => diffusionConvert img w h
  | .OrderedBayer => orderedConvert bayer eps img w h
  | .Checkerboard => checkerboardConvert img w h

theorem addAtCell_spec {g : ErrGrid} {w h row col : Nat} {d : ErrCell}
    (hg : wellShaped g w h) (hrow : row < h) (hcol : col < w) :
    ∃ g', addAtCell g row col d = some g' ∧ wellShaped g' w h ∧
      ∀ i j, ¬(i = row ∧ j = col) → cellAt g' i j = cellAt g i j := by
  have hrow' : row < g.length := by rw [hg.1]; exact hrow
  unfold addAtCell
  have hgr : g[row]? = some g[row] := List.getElem?_eq_getElem hrow'
  rw [hgr]
  have hlenrow : g[row].length = w := hg.2 _ (List.getElem_mem hrow')
  have hcol' : col < g[row].length := by rw [hlenrow]; exact hcol
  have hr : g[row][col]? = some g[row][col] := List.getElem?_eq_getElem hcol'
  dsimp only
  rw [hr]
  dsimp only
  refine ⟨_, rfl, ⟨by simpa using hg.1, ?_⟩, ?_⟩
  · intro r hmem
    rcases List.mem_or_eq_of_mem_set hmem with hmem' | hmem'
    · exact hg.2 _ hmem'
    · subst hmem'; simpa using hlenrow
  · intro i j hne
    unfold cellAt
    by_cases hi : i = row
    · subst hi
      have hj : j ≠ col := fun hj => hne ⟨rfl, hj⟩
      rw [List.getElem?_set_self hrow', hgr]
      dsimp only
      rw [List.getElem?_set_ne (fun hc => hj hc.symm)]
    · rw [List.getElem?_set_ne (fun hc => hi hc.symm)]

theorem diffuse_fold_spec (w h x y : Nat) (qe : ErrCell) (K : List (Int × Int × ℚ)) :
    ∀ g : ErrGrid, wellShaped g w h →
    ∃ g', K.foldl (diffuseStep w h x y qe) (some g) = some g' ∧ wellShaped g' w h ∧
      ∀ i j : Nat, (∀ k ∈ K, ¬((j : Int) = (x : Int) + k.1 ∧ (i : Int) = (y : Int) + k.2.1 ∧
        (j : Int) < (w : Int) ∧ (i : Int) < (h : Int))) → cellAt g' i j = cellAt g i j := by
  induction K with
  | nil => exact fun g hg => ⟨g, rfl, hg, fun i j _ => rfl⟩
  | cons k K ih =>
    intro g hg
    rw [List.foldl_cons]
    by_cases hguard : 0 ≤ (x : Int) + k.1 ∧ (x : Int) + k.1 < (w : Int) ∧
        0 ≤ (y : Int) + k.2.1 ∧ (y : Int) + k.2.1 < (h : Int)
    · have hrow : ((y : Int) + k.2.1).toNat < h := by omega
      have hcol : ((x : Int) + k.1).toNat < w := by omega
      obtain ⟨g1, hg1eq, hg1shape, hg1cells⟩ :=
        addAtCell_spec (d := (qe.1 * k.2.2, qe.2.1 * k.2.2, qe.2.2 * k.2.2)) hg hrow hcol
      have hstep : diffuseStep w h x y qe (some g) k = some g1 := by
        unfold diffuseStep
        dsimp only
        rw [if_pos hguard]
        exact hg1eq
      rw [hstep]
      obtain ⟨g', hfold, hshape, hcells⟩ := ih g1 hg1shape
      refine ⟨g', hfold, hshape, ?_⟩
      intro i j hnot
      have h1 : cellAt g' i j = cellAt g1 i j :=
        hcells i j fun k' hk' => hnot k' (List.mem_cons_of_mem _ hk')
      have h2 : cellAt g1 i j = cellAt g i j := by
        apply hg1cells
        rintro ⟨hi, hj⟩
        refine hnot k (List.mem_cons_self _ _) ⟨?_, ?_, ?_, ?_⟩ <;> omega
      rw [h1, h2]
    · have hstep : diffuseStep w h x y qe (some g) k = some g := by
        unfold diffuseStep
        dsimp only
        rw [if_neg hguard]
      rw [hstep]
      obtain ⟨g', hfold, hshape, hcells⟩ := ih g hg
      exact ⟨g', hfold, hshape, fun i j hnot =>
        hcells i j fun k' hk' => hnot k' (List.mem_cons_of_mem _ hk')⟩

/-- C1: `EpdBitmap::to_bytes` yields exactly the 4 ASCII bytes `"EPBM"`, then
the width as a big-endian u16, then the height as a big-endian u16, then the
`width*height` index bytes verbatim, for a total length of `8 + width*height`;
in particular a 2×1 bitmap with pixel(0,0)=White and pixel(1,0)=Black encodes
to the 10-byte sequence `45 50 42 4D 00 02 00 01 01 00`. -/
theorem to_bytes_format :
    (∀ b : EpdBitmap, b.data.length = b.width * b.height →
      b.to_bytes = [69, 80, 66, 77, b.width / 256, b.width % 256,
        b.height / 256, b.height % 256] ++ b.data ∧
      b.to_bytes.length = 8 + b.width * b.height) ∧
    ((((EpdBitmap.new 2 1).set_pixel 0 0 .White).set_pixel 1 0 .Black).to_bytes
      = [0x45, 0x50, 0x42, 0x4D, 0x00, 0x02, 0x00, 0x01, 0x01, 0x00]) := by
  constructor
  · intro b hb
    refine ⟨rfl, ?_⟩
    simp [EpdBitmap.to_bytes, hb]
    omega
  · decide

/-- Witness for C1: the format law applied to the concrete bitmap
`EpdBitmap.new 2 3`. -/
theorem to_bytes_format_witness :
    (EpdBitmap.new 2 3).to_bytes = [69, 80, 66, 77, 0, 2, 0, 3] ++ (EpdBitmap.new 2 3).data ∧
    (EpdBitmap.new 2 3).to_bytes.length = 8 + 6 :=
  ⟨(to_bytes_format.1 (EpdBitmap.new 2 3) (by decide)).1, (to_bytes_format.1 (EpdBitmap.new 2 3) (by decide)).2⟩

/-- C2: the error-diffusion kernel consists of exactly the six relative
offsets `(+1,0), (+2,0), (−1,+1), (0,+1), (+1,+1), (0,+2)`, each with weight
exactly `1/8`; the weights sum to `3/4`; and diffusion never touches an
error cell that does not sit at one of these six offsets from the current
pixel. -/
theorem atkinson_kernel_exact :
    ATKINSON_KERNEL =
        [(1, 0, 1/8), (2, 0, 1/8), (-1, 1, 1/8), (0, 1, 1/8), (1, 1, 1/8), (0, 2, 1/8)] ∧
    (ATKINSON_KERNEL.map fun k => k.2.2).sum = 3 / 4 ∧
    ∀ (g : ErrGrid) (w h x y : Nat) (qe : ErrCell), wellShaped g w h →
      ∀ i j : Nat, ¬ atKernelOffset x y j i →
        cellAt ((diffuseError g w h x y qe).getD g) i j = cellAt g i j := by
  refine ⟨rfl, by norm_num [ATKINSON_KERNEL], ?_⟩
  intro g w h x y qe hg i j hnot
  obtain ⟨g', heq, _, hcells⟩ := diffuse_fold_spec w h x y qe ATKINSON_KERNEL g hg
  rw [diffuseError, heq]
  exact hcells i j fun k hk hoff => hnot ⟨k, hk, hoff.1, hoff.2.1⟩

/-- Witness for C2: diffusing from pixel `(0,0)` of a 2×2 grid leaves the
cell `(0,0)` itself untouched. -/
theorem atkinson_kernel_exact_witness :
    cellAt ((diffuseError [[((0:ℚ),(0:ℚ),(0:ℚ)), (0,0,0)], [(0,0,0), (0,0,0)]] 2 2 0 0
      (8, 8, 8)).getD [[((0:ℚ),(0:ℚ),(0:ℚ)), (0,0,0)], [(0,0,0), (0,0,0)]]) 0 0 =
    cellAt [[((0:ℚ),(0:ℚ),(0:ℚ)), (0,0,0)], [(0,0,0), (0,0,0)]] 0 0 :=
  atkinson_kernel_exact.2.2 _ 2 2 0 0 (8, 8, 8) (by decide) 0 0 (by decide)

/-- C3: diffusing a pixel's quantization error from any in-bounds position
(the bottom-right pixel included) never panics, preserves the error-buffer
shape (no write outside the buffer), and writes only to cells `(nx,ny)` with
`nx < w` and `ny < h` that sit at a kernel offset: offsets falling outside
the image are dropped. -/
theorem diffuse_bounds_safe (g : ErrGrid) (w h x y : Nat) (qe : ErrCell)
    (hx : x < w) (hy : y < h) (hg : wellShaped g w h) :
    (diffuseError g w h x y qe).isSome ∧
    wellShaped ((diffuseError g w h x y qe).getD g) w h ∧
    ∀ i j : Nat, ¬ inKernelTarget x y j i w h →
      cellAt ((diffuseError g w h x y qe).getD g) i j = cellAt g i j := by
  obtain ⟨g', heq, hshape, hcells⟩ := diffuse_fold_spec w h x y qe ATKINSON_KERNEL g hg
  rw [diffuseError, heq]
  refine ⟨rfl, hshape, ?_⟩
  exact fun i j hnot => hcells i j fun k hk hoff =>
    hnot ⟨k, hk, hoff.1, hoff.2.1, hoff.2.2.1, hoff.2.2.2⟩

/-- Witness for C3: diffusing from the bottom-right pixel of a 2×2 image
succeeds and leaves every cell unchanged (all six offsets fall outside). -/
theorem diffuse_bounds_safe_witness :
    (diffuseError [[((0:ℚ),(0:ℚ),(0:ℚ)), (0,0,0)], [(0,0,0), (0,0,0)]] 2 2 1 1
      (8, 8, 8)).isSome ∧
    wellShaped ((diffuseError [[((0:ℚ),(0:ℚ),(0:ℚ)), (0,0,0)], [(0,0,0), (0,0,0)]] 2 2 1 1
      (8, 8, 8)).getD [[((0:ℚ),(0:ℚ),(0:ℚ)), (0,0,0)], [(0,0,0), (0,0,0)]]) 2 2 :=
  ⟨(diffuse_bounds_safe _ 2 2 1 1 (8, 8, 8) (by decide) (by decide) (by decide)).1,
   (diffuse_bounds_safe _ 2 2 1 1 (8, 8, 8) (by decide) (by decide) (by decide)).2.1⟩

/-- C5 counterexample: `EpdBitmap::new` accepts a zero width without any
error and silently produces a bitmap with an empty data buffer — the
conversion is not rejected before buffer allocation. -/
theorem new_zero_not_rejected :
    (EpdBitmap.new 0 1).data = [] ∧ (EpdBitmap.new 0 1).width = 0 ∧
      (EpdBitmap.new 0 1).height = 1 := by
  decide

/-- C5 amended: `EpdBitmap::new` performs no zero-dimension validation — for
a zero width or height it silently returns a bitmap whose data buffer is
empty (of length `width*height = 0`); no rejection happens inside the bitmap
module. -/
theorem new_zero_silent (w h : Nat) (hz : w = 0 ∨ h = 0) :
    (EpdBitmap.new w h).data = [] ∧ (EpdBitmap.new w h).data.length = w * h := by
  rcases hz with hz | hz <;> subst hz <;> simp [EpdBitmap.new]

/-- Witness for the amended C5 at width 0, height 1. -/
theorem new_zero_silent_witness :
    (EpdBitmap.new 0 1).data = [] ∧ (EpdBitmap.new 0 1).data.length = 0 * 1 :=
  new_zero_silent 0 1 (Or.inl rfl)

/-- C6: `set_pixel` with `x ≥ width` or `y ≥ height` leaves the bitmap
completely unchanged and returns without error. -/
theorem set_pixel_oob_noop (b : EpdBitmap) (x y : Nat) (c : EpdColor)
    (h : b.width ≤ x ∨ b.height ≤ y) : b.set_pixel x y c = b := by
  unfold EpdBitmap.set_pixel
  rw [if_neg]
  omega

/-- Witness for C6: writing at `x = 5` on a 2×1 bitmap is a no-op. -/
theorem set_pixel_oob_noop_witness :
    (EpdBitmap.new 2 1).set_pixel 5 0 .Black = EpdBitmap.new 2 1 :=
  set_pixel_oob_noop (EpdBitmap.new 2 1) 5 0 .Black (Or.inl (by decide))

/-- C7: `EpdBitmap.new` establishes the bitmap invariant (`width*height`
bytes, each a valid palette index — in fact each the White index 1), and
`set_pixel` preserves the invariant for every input. -/
theorem bitmap_invariant :
    (∀ w h : Nat, (EpdBitmap.new w h).Inv ∧ ∀ v ∈ (EpdBitmap.new w h).data, v = 1) ∧
    (∀ (b : EpdBitmap) (x y : Nat) (c : EpdColor), b.Inv → (b.set_pixel x y c).Inv) := by
  constructor
  · intro w h
    refine ⟨⟨by simp [EpdBitmap.new], ?_⟩, ?_⟩
    · intro v hv
      rw [List.eq_of_mem_replicate hv]
      decide
    · intro v hv
      exact List.eq_of_mem_replicate hv
  · intro b x y c hb
    unfold EpdBitmap.set_pixel
    split
    · refine ⟨by simpa using hb.1, ?_⟩
      intro v hv
      rcases List.mem_or_eq_of_mem_set hv with hv' | hv'
      · exact hb.2 v hv'
      · subst hv'
        cases c <;> decide
    · exact hb

/-- Witness for C7: the invariant holds for `new 2 1` and survives an
in-bounds `set_pixel`. -/
theorem bitmap_invariant_witness :
    ((EpdBitmap.new 2 1).set_pixel 1 0 .Red).Inv ∧ (EpdBitmap.new 2 1).Inv :=
  ⟨bitmap_invariant.2 (EpdBitmap.new 2 1) 1 0 .Red (by decide),
   (bitmap_invariant.1 2 1).1⟩

/-- C10: an in-bounds `set_pixel` changes exactly the one data byte at index
`y*width + x` (to the color's index) and leaves the width, the height and
every other data byte unchanged. -/
theorem set_pixel_in_bounds (b : EpdBitmap) (x y : Nat) (c : EpdColor)
    (hx : x < b.width) (hy : y < b.height) (hlen : b.data.length = b.width * b.height) :
    (b.set_pixel x y c).width = b.width ∧
    (b.set_pixel x y c).height = b.height ∧
    (b.set_pixel x y c).data.length = b.data.length ∧
    (b.set_pixel x y c).data[y * b.width + x]? = some c.toNat ∧
    ∀ i : Nat, i ≠ y * b.width + x → (b.set_pixel x y c).data[i]? = b.data[i]? := by
  have hidx : y * b.width + x < b.data.length := by
    rw [hlen]
    calc y * b.width + x < y * b.width + b.width := by omega
    _ = (y + 1) * b.width := by ring
    _ ≤ b.height * b.width := Nat.mul_le_mul_right _ hy
    _ = b.width * b.height := Nat.mul_comm _ _
  unfold EpdBitmap.set_pixel
  rw [if_pos ⟨hx, hy⟩]
  refine ⟨rfl, rfl, by simp, ?_, ?_⟩
  · exact List.getElem?_set_self hidx
  · intro i hi
    exact List.getElem?_set_ne (fun hc => hi hc.symm)

/-- Witness for C10: setting pixel `(1,0)` of a 2×1 bitmap updates exactly
byte 1. -/
theorem set_pixel_in_bounds_witness :
    ((EpdBitmap.new 2 1).set_pixel 1 0 .Black).data[1]? = some EpdColor.Black.toNat ∧
    ((EpdBitmap.new 2 1).set_pixel 1 0 .Black).data[0]? = (EpdBitmap.new 2 1).data[0]? :=
  ⟨by
    have h := set_pixel_in_bounds (EpdBitmap.new 2 1) 1 0 .Black
      (by decide) (by decide) (by decide)
    simpa using h.2.2.2.1,
   by
    have h := set_pixel_in_bounds (EpdBitmap.new 2 1) 1 0 .Black
      (by decide) (by decide) (by decide)
    exact h.2.2.2.2 0 (by decide)⟩

set_option maxHeartbeats 1000000

theorem minByDist_six (d : Nat → ℝ) :
    (minByDist (0, d 0) [(1, d 1), (2, d 2), (3, d 3), (4, d 4), (5, d 5)]).1 < 6 ∧
    (minByDist (0, d 0) [(1, d 1), (2, d 2), (3, d 3), (4, d 4), (5, d 5)]).2 =
      d (minByDist (0, d 0) [(1, d 1), (2, d 2), (3, d 3), (4, d 4), (5, d 5)]).1 ∧
    (∀ j, j < 6 →
      d (minByDist (0, d 0) [(1, d 1), (2, d 2), (3, d 3), (4, d 4), (5, d 5)]).1 ≤ d j) ∧
    (∀ j, j < 6 →
      d j = d (minByDist (0, d 0) [(1, d 1), (2, d 2), (3, d 3), (4, d 4), (5, d 5)]).1 →
      (minByDist (0, d 0) [(1, d 1), (2, d 2), (3, d 3), (4, d 4), (5, d 5)]).1 ≤ j) := by
  simp only [minByDist]
  split_ifs <;> (dsimp only at *) <;>
    refine ⟨by norm_num, rfl, fun j hj => ?_, fun j hj he => ?_⟩ <;>
    interval_cases j <;>
    linarith

theorem minByDist_six_unique (d : Nat → ℝ) (i : Nat) (hi : i < 6)
    (hdom : ∀ j, j < 6 → j ≠ i → d i < d j) :
    (minByDist (0, d 0) [(1, d 1), (2, d 2), (3, d 3), (4, d 4), (5, d 5)]).1 = i := by
  obtain ⟨h1, _, h3, _⟩ := minByDist_six d
  by_contra hne
  exact absurd (h3 i hi) (not_le.2 (hdom _ h1 hne))

/-- C4: for every input RGB triple, `rgb_to_epd_color` returns a palette
index in `[0,6)` whose CIELAB distance to the (saturation-boosted) input is
minimal, and among equally-minimal palette entries the smallest index is
returned (`min_by` keeps the first minimum). -/
theorem rgb_to_epd_color_spec (r g b : Nat) :
    rgb_to_epd_color r g b < 6 ∧
    (∀ j, j < 6 → epdDist r g b (rgb_to_epd_color r g b) ≤ epdDist r g b j) ∧
    (∀ j, j < 6 → epdDist r g b j = epdDist r g b (rgb_to_epd_color r g b) →
      rgb_to_epd_color r g b ≤ j) := by
  have h := minByDist_six (epdDist r g b)
  exact ⟨h.1, h.2.2.1, h.2.2.2⟩

/-- Witness for C4 at the concrete input (10, 20, 30). -/
theorem rgb_to_epd_color_spec_witness :
    rgb_to_epd_color 10 20 30 < 6 ∧
    epdDist 10 20 30 (rgb_to_epd_color 10 20 30) ≤ epdDist 10 20 30 3 :=
  ⟨(rgb_to_epd_color_spec 10 20 30).1, (rgb_to_epd_color_spec 10 20 30).2.1 3 (by norm_num)⟩

theorem rpow_third_self (t : ℝ) (ht : 0 ≤ t) : (t ^ ((1 : ℝ) / 3)) ^ (3 : ℕ) = t := by
  rw [← Real.rpow_natCast (t ^ ((1 : ℝ) / 3)) 3, ← Real.rpow_mul ht]
  norm_num

theorem lt_rpow_third {t c : ℝ} (ht : 0 ≤ t) (h : c ^ (3 : ℕ) < t) : c < t ^ ((1 : ℝ) / 3) := by
  by_contra hle
  push_neg at hle
  have h0 : (0 : ℝ) ≤ t ^ ((1 : ℝ) / 3) := Real.rpow_nonneg ht _
  have h1 := pow_le_pow_left₀ h0 hle 3
  rw [rpow_third_self t ht] at h1
  linarith

theorem rpow_third_lt {t c : ℝ} (ht : 0 ≤ t) (h : t < c ^ (3 : ℕ)) (hc : 0 ≤ c) :
    t ^ ((1 : ℝ) / 3) < c := by
  by_contra hle
  push_neg at hle
  have h1 := pow_le_pow_left₀ hc hle 3
  rw [rpow_third_self t ht] at h1
  linarith

theorem xyz_comp_bounds (lo hi : ℝ) {t : ℝ} (hd : (6 / 29 : ℝ) * (6 / 29) * (6 / 29) < t)
    (h1 : lo ^ (3 : ℕ) < t) (h2 : t < hi ^ (3 : ℕ)) (hhi : 0 ≤ hi) :
    lo < xyz_to_lab_component t ∧ xyz_to_lab_component t < hi := by
  have ht : (0 : ℝ) ≤ t := le_of_lt (lt_trans (by norm_num) hd)
  unfold xyz_to_lab_component
  rw [if_pos hd]
  exact ⟨lt_rpow_third ht h1, rpow_third_lt ht h2 hhi⟩

theorem comp_one : xyz_to_lab_component 1 = 1 := by
  unfold xyz_to_lab_component
  rw [if_pos (by norm_num)]
  exact Real.one_rpow _

theorem srgb_lin_0 : srgb_to_linear 0 = 0 := by
  unfold srgb_to_linear
  norm_num

theorem srgb_lin_255 : srgb_to_linear 255 = 1 := by
  unfold srgb_to_linear
  rw [if_neg (by norm_num)]
  rw [show (((255 : Nat) : ℝ) / 255 + 0.055) / 1.055 = 1 by norm_num, Real.one_rpow]

theorem delta_e_lt_delta_e {l a b l1 a1 b1 l2 a2 b2 : ℝ}
    (h : (l - l1) * (l - l1) + (a - a1) * (a - a1) + (b - b1) * (b - b1) <
         (l - l2) * (l - l2) + (a - a2) * (a - a2) + (b - b2) * (b - b2)) :
    delta_e l a b l1 a1 b1 < delta_e l a b l2 a2 b2 := by
  unfold delta_e
  exact Real.sqrt_lt_sqrt
    (add_nonneg (add_nonneg (mul_self_nonneg _) (mul_self_nonneg _)) (mul_self_nonneg _)) h

theorem sq_gt_four {x : ℝ} (h : 2 < x ∨ x < -2) : 4 < x * x := by
  rcases h with h | h <;> nlinarith

theorem sq_lt_quarter {x c : ℝ} (h1 : c - 1 / 2 < x) (h2 : x < c + 1 / 2) :
    (x - c) * (x - c) < 1 / 4 := by
  nlinarith

theorem dom_step {l a b l1 a1 b1 l2 a2 b2 : ℝ}
    (h1 : (l - l1) * (l - l1) < 1 / 4) (h2 : (a - a1) * (a - a1) < 1 / 4)
    (h3 : (b - b1) * (b - b1) < 1 / 4)
    (h4 : 4 < (l - l2) * (l - l2) ∨ 4 < (a - a2) * (a - a2) ∨ 4 < (b - b2) * (b - b2)) :
    delta_e l a b l1 a1 b1 < delta_e l a b l2 a2 b2 := by
  apply delta_e_lt_delta_e
  rcases h4 with h4 | h4 | h4 <;>
    nlinarith [mul_self_nonneg (l - l2), mul_self_nonneg (a - a2), mul_self_nonneg (b - b2)]

theorem xyz_green : rgb_to_xyz 0 255 0 = (35.75761, 71.51522, 11.9192) := by
  unfold rgb_to_xyz
  simp only [srgb_lin_0, srgb_lin_255]
  norm_num

theorem green_lab_bounds :
    87.7347 < (rgb_to_lab 0 255 0).1 ∧ (rgb_to_lab 0 255 0).1 < 87.7348 ∧
    -86.1828 < (rgb_to_lab 0 255 0).2.1 ∧ (rgb_to_lab 0 255 0).2.1 < -86.1826 ∧
    83.1793 < (rgb_to_lab 0 255 0).2.2 ∧ (rgb_to_lab 0 255 0).2.2 < 83.1794 := by
  have hl : rgb_to_lab 0 255 0 = xyz_to_lab 35.75761 71.51522 11.9192 := by
    unfold rgb_to_lab
    rw [xyz_green]
  have hfx := xyz_comp_bounds 0.7218994 0.7218995
    (t := (35.75761 : ℝ) / 95.047) (by norm_num) (by norm_num) (by norm_num) (by norm_num)
  have hfy := xyz_comp_bounds 0.8942648 0.8942649
    (t := (71.51522 : ℝ) / 100.000) (by norm_num) (by norm_num) (by norm_num) (by norm_num)
  have hfz := xyz_comp_bounds 0.4783682 0.4783683
    (t := (11.9192 : ℝ) / 108.883) (by norm_num) (by norm_num) (by norm_num) (by norm_num)
  rw [hl]
  unfold xyz_to_lab
  refine ⟨?_, ?_, ?_, ?_, ?_, ?_⟩ <;> dsimp only <;> linarith [hfx.1, hfx.2, hfy.1, hfy.2, hfz.1, hfz.2]

theorem boost_green : boost_saturation 0 255 0 1.2 = (0, 255, 0) := by
  unfold boost_saturation rgb_to_hsl hsl_to_rgb
  norm_num [max_def, min_def, rustRem, rustTrunc, rustRound, clamp_as_u8]
  all_goals decide

theorem epdDist_green (j : Nat) :
    epdDist 0 255 0 j = delta_e (rgb_to_lab 0 255 0).1 (rgb_to_lab 0 255 0).2.1
      (rgb_to_lab 0 255 0).2.2 (PALETTE_LAB.getD j (0, 0, 0)).1
      (PALETTE_LAB.getD j (0, 0, 0)).2.1 (PALETTE_LAB.getD j (0, 0, 0)).2.2 := by
  simp only [epdDist, boost_green]

theorem green_dom (j : Nat) (hj : j < 6) (hne : j ≠ 2) :
    epdDist 0 255 0 2 < epdDist 0 255 0 j := by
  obtain ⟨hL1, hL2, ha1, ha2, hb1, hb2⟩ := green_lab_bounds
  rw [epdDist_green 2, epdDist_green j]
  interval_cases j
  · simp only [PALETTE_LAB, List.getD_cons_zero, List.getD_cons_succ]
    exact dom_step (sq_lt_quarter (by linarith) (by linarith))
      (sq_lt_quarter (by linarith) (by linarith))
      (sq_lt_quarter (by linarith) (by linarith))
      (Or.inl (sq_gt_four (Or.inl (by linarith))))
  · simp only [PALETTE_LAB, List.getD_cons_zero, List.getD_cons_succ]
    exact dom_step (sq_lt_quarter (by linarith) (by linarith))
      (sq_lt_quarter (by linarith) (by linarith))
      (sq_lt_quarter (by linarith) (by linarith))
      (Or.inr (Or.inl (sq_gt_four (Or.inr (by linarith)))))
  · exact absurd rfl hne
  · simp only [PALETTE_LAB, List.getD_cons_zero, List.getD_cons_succ]
    exact dom_step (sq_lt_quarter (by linarith) (by linarith))
      (sq_lt_quarter (by linarith) (by linarith))
      (sq_lt_quarter (by linarith) (by linarith))
      (Or.inl (sq_gt_four (Or.inl (by linarith))))
  · simp only [PALETTE_LAB, List.getD_cons_zero, List.getD_cons_succ]
    exact dom_step (sq_lt_quarter (by linarith) (by linarith))
      (sq_lt_quarter (by linarith) (by linarith))
      (sq_lt_quarter (by linarith) (by linarith))
      (Or.inr (Or.inl (sq_gt_four (Or.inr (by linarith)))))
  · simp only [PALETTE_LAB, List.getD_cons_zero, List.getD_cons_succ]
    exact dom_step (sq_lt_quarter (by linarith) (by linarith))
      (sq_lt_quarter (by linarith) (by linarith))
      (sq_lt_quarter (by linarith) (by linarith))
      (Or.inr (Or.inl (sq_gt_four (Or.inr (by linarith)))))

theorem boost_black : boost_saturation 0 0 0 1.2 = (0, 0, 0) := by
  unfold boost_saturation rgb_to_hsl hsl_to_rgb
  norm_num [max_def, min_def, rustRem, rustTrunc, rustRound, clamp_as_u8]
  all_goals decide

theorem black_lab : rgb_to_lab 0 0 0 = (0, 0, 0) := by
  unfold rgb_to_lab rgb_to_xyz xyz_to_lab xyz_to_lab_component
  simp only [srgb_lin_0]
  norm_num

theorem black_lab_bounds :
    -0.001 < (rgb_to_lab 0 0 0).1 ∧ (rgb_to_lab 0 0 0).1 < 0.001 ∧
    -0.001 < (rgb_to_lab 0 0 0).2.1 ∧ (rgb_to_lab 0 0 0).2.1 < 0.001 ∧
    -0.001 < (rgb_to_lab 0 0 0).2.2 ∧ (rgb_to_lab 0 0 0).2.2 < 0.001 := by
  rw [black_lab]
  norm_num

theorem epdDist_black (j : Nat) :
    epdDist 0 0 0 j = delta_e (rgb_to_lab 0 0 0).1 (rgb_to_lab 0 0 0).2.1
      (rgb_to_lab 0 0 0).2.2 (PALETTE_LAB.getD j (0, 0, 0)).1
      (PALETTE_LAB.getD j (0, 0, 0)).2.1 (PALETTE_LAB.getD j (0, 0, 0)).2.2 := by
  simp only [epdDist, boost_black]

theorem black_dom (j : Nat) (hj : j < 6) (hne : j ≠ 0) :
    epdDist 0 0 0 0 < epdDist 0 0 0 j := by
  obtain ⟨hL1, hL2, ha1, ha2, hb1, hb2⟩ := black_lab_bounds
  rw [epdDist_black 0, epdDist_black j]
  interval_cases j
  · exact absurd rfl hne
  · simp only [PALETTE_LAB, List.getD_cons_zero, List.getD_cons_succ]
    exact dom_step (sq_lt_quarter (by linarith) (by linarith))
      (sq_lt_quarter (by linarith) (by linarith))
      (sq_lt_quarter (by linarith) (by linarith))
      (Or.inl (sq_gt_four (Or.inr (by linarith))))
  · simp only [PALETTE_LAB, List.getD_cons_zero, List.getD_cons_succ]
    exact dom_step (sq_lt_quarter (by linarith) (by linarith))
      (sq_lt_quarter (by linarith) (by linarith))
      (sq_lt_quarter (by linarith) (by linarith))
      (Or.inl (sq_gt_four (Or.inr (by linarith))))
  · simp only [PALETTE_LAB, List.getD_cons_zero, List.getD_cons_succ]
    exact dom_step (sq_lt_quarter (by linarith) (by linarith))
      (sq_lt_quarter (by linarith) (by linarith))
      (sq_lt_quarter (by linarith) (by linarith))
      (Or.inl (sq_gt_four (Or.inr (by linarith))))
  · simp only [PALETTE_LAB, List.getD_cons_zero, List.getD_cons_succ]
    exact dom_step (sq_lt_quarter (by linarith) (by linarith))
      (sq_lt_quarter (by linarith) (by linarith))
      (sq_lt_quarter (by linarith) (by linarith))
      (Or.inl (sq_gt_four (Or.inr (by linarith))))
  · simp only [PALETTE_LAB, List.getD_cons_zero, List.getD_cons_succ]
    exact dom_step (sq_lt_quarter (by linarith) (by linarith))
      (sq_lt_quarter (by linarith) (by linarith))
      (sq_lt_quarter (by linarith) (by linarith))
      (Or.inl (sq_gt_four (Or.inr (by linarith))))

theorem boost_white : boost_saturation 255 255 255 1.2 = (255, 255, 255) := by
  unfold boost_saturation rgb_to_hsl hsl_to_rgb
  norm_num [max_def, min_def, rustRem, rustTrunc, rustRound, clamp_as_u8]
  all_goals decide

theorem xyz_white : rgb_to_xyz 255 255 255 = (95.047, 100.00001, 108.883) := by
  unfold rgb_to_xyz
  simp only [srgb_lin_255]
  norm_num

theorem white_lab_bounds :
    99.9999 < (rgb_to_lab 255 255 255).1 ∧ (rgb_to_lab 255 255 255).1 < 100.0001 ∧
    -0.0001 < (rgb_to_lab 255 255 255).2.1 ∧ (rgb_to_lab 255 255 255).2.1 < 0.0001 ∧
    -0.0001 < (rgb_to_lab 255 255 255).2.2 ∧ (rgb_to_lab 255 255 255).2.2 < 0.0001 := by
  have hl : rgb_to_lab 255 255 255 = xyz_to_lab 95.047 100.00001 108.883 := by
    unfold rgb_to_lab
    rw [xyz_white]
  have hfx : xyz_to_lab_component ((95.047 : ℝ) / 95.047) = 1 := by
    rw [show (95.047 : ℝ) / 95.047 = 1 by norm_num, comp_one]
  have hfz : xyz_to_lab_component ((108.883 : ℝ) / 108.883) = 1 := by
    rw [show (108.883 : ℝ) / 108.883 = 1 by norm_num, comp_one]
  have hfy := xyz_comp_bounds 1 1.0000001 (t := (100.00001 : ℝ) / 100.000)
    (by norm_num) (by norm_num) (by norm_num) (by norm_num)
  rw [hl]
  unfold xyz_to_lab
  refine ⟨?_, ?_, ?_, ?_, ?_, ?_⟩ <;> dsimp only <;>
    linarith [hfx, hfz, hfy.1, hfy.2]

theorem epdDist_white (j : Nat) :
    epdDist 255 255 255 j = delta_e (rgb_to_lab 255 255 255).1 (rgb_to_lab 255 255 255).2.1
      (rgb_to_lab 255 255 255).2.2 (PALETTE_LAB.getD j (0, 0, 0)).1
      (PALETTE_LAB.getD j (0, 0, 0)).2.1 (PALETTE_LAB.getD j (0, 0, 0)).2.2 := by
  simp only [epdDist, boost_white]

theorem white_dom (j : Nat) (hj : j < 6) (hne : j ≠ 1) :
    epdDist 255 255 255 1 < epdDist 255 255 255 j := by
  obtain ⟨hL1, hL2, ha1, ha2, hb1, hb2⟩ := white_lab_bounds
  rw [epdDist_white 1, epdDist_white j]
  interval_cases j
  · simp only [PALETTE_LAB, List.getD_cons_zero, List.getD_cons_succ]
    exact dom_step (sq_lt_quarter (by linarith) (by linarith))
      (sq_lt_quarter (by linarith) (by linarith))
      (sq_lt_quarter (by linarith) (by linarith))
      (Or.inl (sq_gt_four (Or.inl (by linarith))))
  · exact absurd rfl hne
  · simp only [PALETTE_LAB, List.getD_cons_zero, List.getD_cons_succ]
    exact dom_step (sq_lt_quarter (by linarith) (by linarith))
      (sq_lt_quarter (by linarith) (by linarith))
      (sq_lt_quarter (by linarith) (by linarith))
      (Or.inl (sq_gt_four (Or.inl (by linarith))))
  · simp only [PALETTE_LAB, List.getD_cons_zero, List.getD_cons_succ]
    exact dom_step (sq_lt_quarter (by linarith) (by linarith))
      (sq_lt_quarter (by linarith) (by linarith))
      (sq_lt_quarter (by linarith) (by linarith))
      (Or.inl (sq_gt_four (Or.inl (by linarith))))
  · simp only [PALETTE_LAB, List.getD_cons_zero, List.getD_cons_succ]
    exact dom_step (sq_lt_quarter (by linarith) (by linarith))
      (sq_lt_quarter (by linarith) (by linarith))
      (sq_lt_quarter (by linarith) (by linarith))
      (Or.inl (sq_gt_four (Or.inl (by linarith))))
  · simp only [PALETTE_LAB, List.getD_cons_zero, List.getD_cons_succ]
    exact dom_step (sq_lt_quarter (by linarith) (by linarith))
      (sq_lt_quarter (by linarith) (by linarith))
      (sq_lt_quarter (by linarith) (by linarith))
      (Or.inl (sq_gt_four (Or.inl (by linarith))))

theorem boost_blue : boost_saturation 0 0 255 1.2 = (0, 0, 255) := by
  unfold boost_saturation rgb_to_hsl hsl_to_rgb
  norm_num [max_def, min_def, rustRem, rustTrunc, rustRound, clamp_as_u8]
  all_goals decide

theorem xyz_blue : rgb_to_xyz 0 0 255 = (18.04375, 7.2175, 95.03041) := by
  unfold rgb_to_xyz
  simp only [srgb_lin_0, srgb_lin_255]
  norm_num

theorem blue_lab_bounds :
    32.2970 < (rgb_to_lab 0 0 255).1 ∧ (rgb_to_lab 0 0 255).1 < 32.2971 ∧
    79.1874 < (rgb_to_lab 0 0 255).2.1 ∧ (rgb_to_lab 0 0 255).2.1 < 79.1876 ∧
    -107.8602 < (rgb_to_lab 0 0 255).2.2 ∧ (rgb_to_lab 0 0 255).2.2 < -107.8601 := by
  have hl : rgb_to_lab 0 0 255 = xyz_to_lab 18.04375 7.2175 95.03041 := by
    unfold rgb_to_lab
    rw [xyz_blue]
  have hfx := xyz_comp_bounds 0.5747285 0.5747286
    (t := (18.04375 : ℝ) / 95.047) (by norm_num) (by norm_num) (by norm_num) (by norm_num)
  have hfy := xyz_comp_bounds 0.4163535 0.4163536
    (t := (7.2175 : ℝ) / 100.000) (by norm_num) (by norm_num) (by norm_num) (by norm_num)
  have hfz := xyz_comp_bounds 0.9556543 0.9556544
    (t := (95.03041 : ℝ) / 108.883) (by norm_num) (by norm_num) (by norm_num) (by norm_num)
  rw [hl]
  unfold xyz_to_lab
  refine ⟨?_, ?_, ?_, ?_, ?_, ?_⟩ <;> dsimp only <;>
    linarith [hfx.1, hfx.2, hfy.1, hfy.2, hfz.1, hfz.2]

theorem epdDist_blue (j : Nat) :
    epdDist 0 0 255 j = delta_e (rgb_to_lab 0 0 255).1 (rgb_to_lab 0 0 255).2.1
      (rgb_to_lab 0 0 255).2.2 (PALETTE_LAB.getD j (0, 0, 0)).1
      (PALETTE_LAB.getD j (0, 0, 0)).2.1 (PALETTE_LAB.getD j (0, 0, 0)).2.2 := by
  simp only [epdDist, boost_blue]

theorem blue_dom (j : Nat) (hj : j < 6) (hne : j ≠ 3) :
    epdDist 0 0 255 3 < epdDist 0 0 255 j := by
  obtain ⟨hL1, hL2, ha1, ha2, hb1, hb2⟩ := blue_lab_bounds
  rw [epdDist_blue 3, epdDist_blue j]
  interval_cases j
  · simp only [PALETTE_LAB, List.getD_cons_zero, List.getD_cons_succ]
    exact dom_step (sq_lt_quarter (by linarith) (by linarith))
      (sq_lt_quarter (by linarith) (by linarith))
      (sq_lt_quarter (by linarith) (by linarith))
      (Or.inl (sq_gt_four (Or.inl (by linarith))))
  · simp only [PALETTE_LAB, List.getD_cons_zero, List.getD_cons_succ]
    exact dom_step (sq_lt_quarter (by linarith) (by linarith))
      (sq_lt_quarter (by linarith) (by linarith))
      (sq_lt_quarter (by linarith) (by linarith))
      (Or.inl (sq_gt_four (Or.inr (by linarith))))
  · simp only [PALETTE_LAB, List.getD_cons_zero, List.getD_cons_succ]
    exact dom_step (sq_lt_quarter (by linarith) (by linarith))
      (sq_lt_quarter (by linarith) (by linarith))
      (sq_lt_quarter (by linarith) (by linarith))
      (Or.inr (Or.inl (sq_gt_four (Or.inl (by linarith)))))
  · exact absurd rfl hne
  · simp only [PALETTE_LAB, List.getD_cons_zero, List.getD_cons_succ]
    exact dom_step (sq_lt_quarter (by linarith) (by linarith))
      (sq_lt_quarter (by linarith) (by linarith))
      (sq_lt_quarter (by linarith) (by linarith))
      (Or.inl (sq_gt_four (Or.inr (by linarith))))
  · simp only [PALETTE_LAB, List.getD_cons_zero, List.getD_cons_succ]
    exact dom_step (sq_lt_quarter (by linarith) (by linarith))
      (sq_lt_quarter (by linarith) (by linarith))
      (sq_lt_quarter (by linarith) (by linarith))
      (Or.inl (sq_gt_four (Or.inr (by linarith))))

theorem boost_red : boost_saturation 255 0 0 1.2 = (255, 0, 0) := by
  unfold boost_saturation rgb_to_hsl hsl_to_rgb
  norm_num [max_def, min_def, rustRem, rustTrunc, rustRound, clamp_as_u8]
  all_goals decide

theorem xyz_red : rgb_to_xyz 255 0 0 = (41.24564, 21.26729, 1.93339) := by
  unfold rgb_to_xyz
  simp only [srgb_lin_0, srgb_lin_255]
  norm_num

theorem red_lab_bounds :
    53.2407 < (rgb_to_lab 255 0 0).1 ∧ (rgb_to_lab 255 0 0).1 < 53.2409 ∧
    80.0924 < (rgb_to_lab 255 0 0).2.1 ∧ (rgb_to_lab 255 0 0).2.1 < 80.0926 ∧
    67.2031 < (rgb_to_lab 255 0 0).2.2 ∧ (rgb_to_lab 255 0 0).2.2 < 67.2033 := by
  have hl : rgb_to_lab 255 0 0 = xyz_to_lab 41.24564 21.26729 1.93339 := by
    unfold rgb_to_lab
    rw [xyz_red]
  have hfx := xyz_comp_bounds 0.7570883 0.7570884
    (t := (41.24564 : ℝ) / 95.047) (by norm_num) (by norm_num) (by norm_num) (by norm_num)
  have hfy := xyz_comp_bounds 0.5969033 0.5969034
    (t := (21.26729 : ℝ) / 100.000) (by norm_num) (by norm_num) (by norm_num) (by norm_num)
  have hfz := xyz_comp_bounds 0.2608874 0.2608875
    (t := (1.93339 : ℝ) / 108.883) (by norm_num) (by norm_num) (by norm_num) (by norm_num)
  rw [hl]
  unfold xyz_to_lab
  refine ⟨?_, ?_, ?_, ?_, ?_, ?_⟩ <;> dsimp only <;>
    linarith [hfx.1, hfx.2, hfy.1, hfy.2, hfz.1, hfz.2]

theorem epdDist_red (j : Nat) :
    epdDist 255 0 0 j = delta_e (rgb_to_lab 255 0 0).1 (rgb_to_lab 255 0 0).2.1
      (rgb_to_lab 255 0 0).2.2 (PALETTE_LAB.getD j (0, 0, 0)).1
      (PALETTE_LAB.getD j (0, 0, 0)).2.1 (PALETTE_LAB.getD j (0, 0, 0)).2.2 := by
  simp only [epdDist, boost_red]

theorem red_dom (j : Nat) (hj : j < 6) (hne : j ≠ 4) :
    epdDist 255 0 0 4 < epdDist 255 0 0 j := by
  obtain ⟨hL1, hL2, ha1, ha2, hb1, hb2⟩ := red_lab_bounds
  rw [epdDist_red 4, epdDist_red j]
  interval_cases j
  · simp only [PALETTE_LAB, List.getD_cons_zero, List.getD_cons_succ]
    exact dom_step (sq_lt_quarter (by linarith) (by linarith))
      (sq_lt_quarter (by linarith) (by linarith))
      (sq_lt_quarter (by linarith) (by linarith))
      (Or.inl (sq_gt_four (Or.inl (by linarith))))
  · simp only [PALETTE_LAB, List.getD_cons_zero, List.getD_cons_succ]
    exact dom_step (sq_lt_quarter (by linarith) (by linarith))
      (sq_lt_quarter (by linarith) (by linarith))
      (sq_lt_quarter (by linarith) (by linarith))
      (Or.inl (sq_gt_four (Or.inr (by linarith))))
  · simp only [PALETTE_LAB, List.getD_cons_zero, List.getD_cons_succ]
    exact dom_step (sq_lt_quarter (by linarith) (by linarith))
      (sq_lt_quarter (by linarith) (by linarith))
      (sq_lt_quarter (by linarith) (by linarith))
      (Or.inr (Or.inl (sq_gt_four (Or.inl (by linarith)))))
  · simp only [PALETTE_LAB, List.getD_cons_zero, List.getD_cons_succ]
    exact dom_step (sq_lt_quarter (by linarith) (by linarith))
      (sq_lt_quarter (by linarith) (by linarith))
      (sq_lt_quarter (by linarith) (by linarith))
      (Or.inl (sq_gt_four (Or.inl (by linarith))))
  · exact absurd rfl hne
  · simp only [PALETTE_LAB, List.getD_cons_zero, List.getD_cons_succ]
    exact dom_step (sq_lt_quarter (by linarith) (by linarith))
      (sq_lt_quarter (by linarith) (by linarith))
      (sq_lt_quarter (by linarith) (by linarith))
      (Or.inl (sq_gt_four (Or.inr (by linarith))))

theorem boost_yellow : boost_saturation 255 255 0 1.2 = (255, 255, 0) := by
  unfold boost_saturation rgb_to_hsl hsl_to_rgb
  norm_num [max_def, min_def, rustRem, rustTrunc, rustRound, clamp_as_u8]
  all_goals decide

theorem xyz_yellow : rgb_to_xyz 255 255 0 = (77.00325, 92.78251, 13.85259) := by
  unfold rgb_to_xyz
  simp only [srgb_lin_0, srgb_lin_255]
  norm_num

theorem yellow_lab_bounds :
    97.1392 < (rgb_to_lab 255 255 0).1 ∧ (rgb_to_lab 255 255 0).1 < 97.1393 ∧
    -21.5539 < (rgb_to_lab 255 255 0).2.1 ∧ (rgb_to_lab 255 255 0).2.1 < -21.5537 ∧
    94.4779 < (rgb_to_lab 255 255 0).2.2 ∧ (rgb_to_lab 255 255 0).2.2 < 94.4781 := by
  have hl : rgb_to_lab 255 255 0 = xyz_to_lab 77.00325 92.78251 13.85259 := by
    unfold rgb_to_lab
    rw [xyz_yellow]
  have hfx := xyz_comp_bounds 0.9322310 0.9322311
    (t := (77.00325 : ℝ) / 95.047) (by norm_num) (by norm_num) (by norm_num) (by norm_num)
  have hfy := xyz_comp_bounds 0.9753385 0.9753386
    (t := (92.78251 : ℝ) / 100.000) (by norm_num) (by norm_num) (by norm_num) (by norm_num)
  have hfz := xyz_comp_bounds 0.5029486 0.5029487
    (t := (13.85259 : ℝ) / 108.883) (by norm_num) (by norm_num) (by norm_num) (by norm_num)
  rw [hl]
  unfold xyz_to_lab
  refine ⟨?_, ?_, ?_, ?_, ?_, ?_⟩ <;> dsimp only <;>
    linarith [hfx.1, hfx.2, hfy.1, hfy.2, hfz.1, hfz.2]

theorem epdDist_yellow (j : Nat) :
    epdDist 255 255 0 j = delta_e (rgb_to_lab 255 255 0).1 (rgb_to_lab 255 255 0).2.1
      (rgb_to_lab 255 255 0).2.2 (PALETTE_LAB.getD j (0, 0, 0)).1
      (PALETTE_LAB.getD j (0, 0, 0)).2.1 (PALETTE_LAB.getD j (0, 0, 0)).2.2 := by
  simp only [epdDist, boost_yellow]

theorem yellow_dom (j : Nat) (hj : j < 6) (hne : j ≠ 5) :
    epdDist 255 255 0 5 < epdDist 255 255 0 j := by
  obtain ⟨hL1, hL2, ha1, ha2, hb1, hb2⟩ := yellow_lab_bounds
  rw [epdDist_yellow 5, epdDist_yellow j]
  interval_cases j
  · simp only [PALETTE_LAB, List.getD_cons_zero, List.getD_cons_succ]
    exact dom_step (sq_lt_quarter (by linarith) (by linarith))
      (sq_lt_quarter (by linarith) (by linarith))
      (sq_lt_quarter (by linarith) (by linarith))
      (Or.inl (sq_gt_four (Or.inl (by linarith))))
  · simp only [PALETTE_LAB, List.getD_cons_zero, List.getD_cons_succ]
    exact dom_step (sq_lt_quarter (by linarith) (by linarith))
      (sq_lt_quarter (by linarith) (by linarith))
      (sq_lt_quarter (by linarith) (by linarith))
      (Or.inl (sq_gt_four (Or.inr (by linarith))))
  · simp only [PALETTE_LAB, List.getD_cons_zero, List.getD_cons_succ]
    exact dom_step (sq_lt_quarter (by linarith) (by linarith))
      (sq_lt_quarter (by linarith) (by linarith))
      (sq_lt_quarter (by linarith) (by linarith))
      (Or.inr (Or.inl (sq_gt_four (Or.inl (by linarith)))))
  · simp only [PALETTE_LAB, List.getD_cons_zero, List.getD_cons_succ]
    exact dom_step (sq_lt_quarter (by linarith) (by linarith))
      (sq_lt_quarter (by linarith) (by linarith))
      (sq_lt_quarter (by linarith) (by linarith))
      (Or.inl (sq_gt_four (Or.inl (by linarith))))
  · simp only [PALETTE_LAB, List.getD_cons_zero, List.getD_cons_succ]
    exact dom_step (sq_lt_quarter (by linarith) (by linarith))
      (sq_lt_quarter (by linarith) (by linarith))
      (sq_lt_quarter (by linarith) (by linarith))
      (Or.inl (sq_gt_four (Or.inl (by linarith))))
  · exact absurd rfl hne

theorem clamp_add_zero (p : Nat) (hp : p ≤ 255) : clamp_add_u8 p 0 = p := by
  unfold clamp_add_u8
  have h1 : min (255 : ℝ) ((p : ℝ) + 0) = (p : ℝ) := by
    rw [add_zero]
    exact min_eq_right (by exact_mod_cast hp)
  have h2 : max (0 : ℝ) ((p : ℝ)) = (p : ℝ) := max_eq_right (Nat.cast_nonneg p)
  rw [h1, h2, Int.floor_natCast, Int.toNat_natCast]

/-- C8: for each of the six palette colors, quantizing a pixel whose RGB
triple equals that palette entry's RGB value returns that palette entry's
index — the saturation boost fixes palette colors and the computed CIELAB
point is strictly closest to the entry's stored LAB constant; with zero
accumulated error the per-pixel diffusion step therefore also returns that
index. -/
theorem palette_exact_snap :
    (∀ i : Nat, i < 6 →
      rgb_to_epd_color (PALETTE.getD i (0, 0, 0)).1 (PALETTE.getD i (0, 0, 0)).2.1
        (PALETTE.getD i (0, 0, 0)).2.2 = i) ∧
    (∀ i : Nat, i < 6 →
      diffusePixelColor (PALETTE.getD i (0, 0, 0)).1 (PALETTE.getD i (0, 0, 0)).2.1
        (PALETTE.getD i (0, 0, 0)).2.2 0 0 0 = i) := by
  have hmain : ∀ i : Nat, i < 6 →
      rgb_to_epd_color (PALETTE.getD i (0, 0, 0)).1 (PALETTE.getD i (0, 0, 0)).2.1
        (PALETTE.getD i (0, 0, 0)).2.2 = i := by
    intro i hi
    interval_cases i
    · exact minByDist_six_unique (epdDist 0 0 0) 0 (by norm_num) black_dom
    · exact minByDist_six_unique (epdDist 255 255 255) 1 (by norm_num) white_dom
    · exact minByDist_six_unique (epdDist 0 255 0) 2 (by norm_num) green_dom
    · exact minByDist_six_unique (epdDist 0 0 255) 3 (by norm_num) blue_dom
    · exact minByDist_six_unique (epdDist 255 0 0) 4 (by norm_num) red_dom
    · exact minByDist_six_unique (epdDist 255 255 0) 5 (by norm_num) yellow_dom
  refine ⟨hmain, ?_⟩
  intro i hi
  interval_cases i <;>
    simp only [PALETTE, List.getD_cons_zero, List.getD_cons_succ, diffusePixelColor,
      clamp_add_zero 0 (by norm_num), clamp_add_zero 255 (by norm_num)]
  · exact minByDist_six_unique (epdDist 0 0 0) 0 (by norm_num) black_dom
  · exact minByDist_six_unique (epdDist 255 255 255) 1 (by norm_num) white_dom
  · exact minByDist_six_unique (epdDist 0 255 0) 2 (by norm_num) green_dom
  · exact minByDist_six_unique (epdDist 0 0 255) 3 (by norm_num) blue_dom
  · exact minByDist_six_unique (epdDist 255 0 0) 4 (by norm_num) red_dom
  · exact minByDist_six_unique (epdDist 255 255 0) 5 (by norm_num) yellow_dom

/-- Witness for C8 at Green (index 2) and, through the diffusion step with
zero error, White (index 1). -/
theorem palette_exact_snap_witness :
    rgb_to_epd_color (PALETTE.getD 2 (0, 0, 0)).1 (PALETTE.getD 2 (0, 0, 0)).2.1
      (PALETTE.getD 2 (0, 0, 0)).2.2 = 2 ∧
    diffusePixelColor (PALETTE.getD 1 (0, 0, 0)).1 (PALETTE.getD 1 (0, 0, 0)).2.1
      (PALETTE.getD 1 (0, 0, 0)).2.2 0 0 0 = 1 :=
  ⟨palette_exact_snap.1 2 (by norm_num), palette_exact_snap.2 1 (by norm_num)⟩

theorem set_pixel_shape (b : EpdBitmap) (x y : Nat) (c : EpdColor) :
    (b.set_pixel x y c).width = b.width ∧ (b.set_pixel x y c).height = b.height ∧
    (b.set_pixel x y c).data.length = b.data.length := by
  unfold EpdBitmap.set_pixel
  split <;> simp

theorem diffusion_fold_shape (img : Nat → Nat → Nat × Nat × Nat) (w h : Nat) :
    ∀ (l : List (Nat × Nat)) (st : ErrGrid × EpdBitmap),
    (l.foldl (diffusionStepPixel img w h) st).2.width = st.2.width ∧
    (l.foldl (diffusionStepPixel img w h) st).2.height = st.2.height ∧
    (l.foldl (diffusionStepPixel img w h) st).2.data.length = st.2.data.length := by
  intro l
  induction l with
  | nil => exact fun st => ⟨rfl, rfl, rfl⟩
  | cons p l ih =>
    intro st
    rw [List.foldl_cons]
    have hstep : (diffusionStepPixel img w h st p).2.width = st.2.width ∧
        (diffusionStepPixel img w h st p).2.height = st.2.height ∧
        (diffusionStepPixel img w h st p).2.data.length = st.2.data.length := by
      unfold diffusionStepPixel
      dsimp only
      exact set_pixel_shape _ _ _ _
    have hrest := ih (diffusionStepPixel img w h st p)
    exact ⟨hrest.1.trans hstep.1, hrest.2.1.trans hstep.2.1, hrest.2.2.trans hstep.2.2⟩

/-- C9: the dithering engine offers three interchangeable strategies
selected by configuration — error diffusion, ordered/Bayer and
checkerboard — each consuming the full rasterized image and producing a
complete `w × h` indexed bitmap; and in the ordered (Bayer) conversion each
output pixel is the stateless `orderedPixel` function of `(x, y)`, the
threshold matrix, the pure-color epsilon and that pixel's own input (hence
of its two nearest palette colors and distances). -/
theorem dither_strategies (strat : DitherStrategy) (bayer : Nat → Nat → ℝ) (eps : ℝ)
    (img : Nat → Nat → Nat × Nat × Nat) (w h : Nat) :
    (ditherConvert strat bayer eps img w h).width = w ∧
    (ditherConvert strat bayer eps img w h).height = h ∧
    (ditherConvert strat bayer eps img w h).data.length = w * h ∧
    (∀ x y : Nat, x < w → y < h →
      (ditherConvert .OrderedBayer bayer eps img w h).data[y * w + x]? =
        some (orderedPixel bayer eps x y (img x y))) := by
  have hpix : ∀ x y : Nat, x < w → y < h →
      (ditherConvert .OrderedBayer bayer eps img w h).data[y * w + x]? =
        some (orderedPixel bayer eps x y (img x y)) := by
    intro x y hx hy
    have hw : 0 < w := by omega
    have hidx : y * w + x < w * h := by
      calc y * w + x < y * w + w := by omega
      _ = (y + 1) * w := by ring
      _ ≤ h * w := Nat.mul_le_mul_right _ hy
      _ = w * h := Nat.mul_comm _ _
    show (orderedConvert bayer eps img w h).data[y * w + x]? = _
    unfold orderedConvert
    rw [List.getElem?_map, List.getElem?_range hidx]
    have hmod : (y * w + x) % w = x := by
      rw [Nat.mul_comm, Nat.mul_add_mod, Nat.mod_eq_of_lt hx]
    have hdiv : (y * w + x) / w = y := by
      rw [Nat.mul_comm, Nat.mul_add_div hw, Nat.div_eq_of_lt hx, Nat.add_zero]
    simp only [Option.map_some, Option.map_some']
    rw [hmod, hdiv]
  refine ⟨?_, ?_, ?_, hpix⟩ <;> cases strat
  · show (diffusionConvert img w h).width = w
    unfold diffusionConvert
    dsimp only
    rw [(diffusion_fold_shape img w h _ _).1]
    rfl
  · rfl
  · rfl
  · show (diffusionConvert img w h).height = h
    unfold diffusionConvert
    dsimp only
    rw [(diffusion_fold_shape img w h _ _).2.1]
    rfl
  · rfl
  · rfl
  · show (diffusionConvert img w h).data.length = w * h
    unfold diffusionConvert
    dsimp only
    rw [(diffusion_fold_shape img w h _ _).2.2]
    simp [EpdBitmap.new]
  · simp [ditherConvert, orderedConvert]
  · simp [ditherConvert, checkerboardConvert]

/-- Witness for C9: the ordered strategy on a 1×1 image. -/
theorem dither_strategies_witness :
    (ditherConvert .OrderedBayer (fun _ _ => (0 : ℝ)) 1 (fun _ _ => (0, 0, 0)) 1 1).width = 1 ∧
    (ditherConvert .OrderedBayer (fun _ _ => (0 : ℝ)) 1 (fun _ _ => (0, 0, 0)) 1 1).data[0 * 1 + 0]? =
      some (orderedPixel (fun _ _ => (0 : ℝ)) 1 0 0 (0, 0, 0)) :=
  ⟨(dither_strategies .OrderedBayer (fun _ _ => (0 : ℝ)) 1 (fun _ _ => (0, 0, 0)) 1 1).1,
   (dither_strategies .OrderedBayer (fun _ _ => (0 : ℝ)) 1 (fun _ _ => (0, 0, 0)) 1 1).2.2.2
     0 0 (by norm_num) (by norm_num)⟩
